import Mathlib

/-!
Shallow embedding of the bracket subsystem of the t0g tournament bot.

The embedding covers the code the specification's bracket claims are about:

* `cogs/t_start_bracket_cog.py` — `ScoreMatchModal.on_submit` (score submission),
  `TournamentStartBracketCog._create_round_one_matches`,
  `_create_next_round_matches`, `after_match_scored`, `start_tournament`,
  and the projection part of `_update_bracket_image`;
* `cogs/tournament_db.py` — the compatibility helpers `update_bracket_match`
  and `upsert_tournament`, and the `bracket_matches` schema;
* `core/db.py` — the `run_db` / `with_conn` calling conventions;
* `cogs/tournament_bracket_cog.py` — `get_seeded_teams`.

The persistent store is modelled logically, per guild, as the list of
`bracket_matches` rows the cog logic addresses (`match_id`, `round_number`,
`team_a`, `team_b`, `winner`, `status`), plus the tournament row's `status`
and the ready-team name list.  The cogs, however, were written against a
legacy database API, and the compatibility layer in `tournament_db.py`
breaks every bracket write at the Python call level, independently of any
store contents: `update_bracket_match` passes SQL text to `run_db`, which
takes a single callable argument (`TypeError`); `upsert_tournament` carries
a stray `@with_conn` decorator, so the cogs' two-argument calls raise
`TypeError`; both round-creation loops call `insert_bracket_match` with
keywords its signature rejects; and the cog's own SQL names columns
(`round_number`, `team_a`, `winner`, `guild_id`, ...) that the
`bracket_matches` schema (`round_no`, `team_a_id`, `winner_team_id`,
`tournament_id`, ...) does not have, so those reads raise
`OperationalError`.  These raises are not corner cases but the only
reachable behaviour of the affected operations, and the embedding models
them as `Except` errors carrying the store as it stands at the raise.
Discord side effects (channels, messages, images) are outside the store and
not modelled; Python string case operations and truthiness are embedded
explicitly.
-/

/-- Python `str.upper` for the ASCII status strings this code manipulates,
embedded character-wise over the string's character list. -/
def pyUpper (s : String) : String := ⟨s.data.map Char.toUpper⟩

/-- Python `str.lower` for the ASCII status strings this code manipulates,
embedded character-wise over the string's character list. -/
def pyLower (s : String) : String := ⟨s.data.map Char.toLower⟩

/-- Python truthiness of an optional string value (`None` and `""` are falsy),
as used for the `winner` column. -/
def pyTruthy : Option String → Bool
  | none => false
  | some s => s ≠ ""

/-- A row of the `bracket_matches` table as the bracket cog reads and writes
it: `match_id`, `round_number`, the two team names, the recorded `winner`
(nullable) and the `status` string.  Channel id, score columns and timestamps
play no role in the bracket logic and are omitted. -/
structure BracketMatch where
  match_id : Nat
  round_number : Nat
  team_a : String
  team_b : String
  winner : Option String
  status : String
deriving Repr, DecidableEq

/-- The tournament row field the start/advance logic reads and writes: its
`status` string (`WAITING` / `RUNNING` / `FINISHED`). -/
structure Tournament where
  status : String
deriving Repr, DecidableEq

/-- The persistent store as the bracket cog sees it for one guild: the
optional tournament row, the ready team names in storage order (the input of
`collect_team_names`), and the bracket match rows. -/
structure DBState where
  tournament : Option Tournament
  readyTeams : List String
  matchRows : List BracketMatch
deriving Repr, DecidableEq

/-- Embeds `tournament_db.update_bracket_match` (the legacy updater the
score modal uses).  With no fields to set it returns without touching the
store (`if not fields: return`).  With any field set it builds the UPDATE
text and calls `core_db.run_db(sql, tuple(params))` — but `run_db`
(`core/db.py`) takes a single callable positional argument with keyword-only
options, so the call raises `TypeError` before any SQL runs and no row is
ever written.  Only the `winner` and `status` parameters of the real
signature are modelled; the score modal passes exactly these. -/
def update_bracket_match (ms : List BracketMatch) (mid : Nat)
    (winner : Option String) (status : Option String) :
    Except String (List BracketMatch) :=
  if winner = none ∧ status = none then .ok ms
  else .error "TypeError: run_db() takes 1 positional argument but 2 were given"

/-- Outcome reported to the submitting user by `ScoreMatchModal.on_submit`
(after the integer parse step, which is not modelled: scores enter as
integers): the tie rejection, the failed-save error message, or a saved
result. -/
inductive SubmitOutcome where
  | tied
  | saveFailed
  | saved (winner : String)
deriving Repr, DecidableEq

/-- Embeds `ScoreMatchModal.on_submit` after score parsing: the modal
carries the two team names it was constructed with; equal scores are
rejected before any write; otherwise the winner (`team_a` if `s_a > s_b`
else `team_b`) is computed and passed to `update_bracket_match` with status
`COMPLETED` inside a try/except — a raise is caught and reported as a failed
save ("Failed to save match result"), leaving the store as it was. -/
def record_result (ms : List BracketMatch) (mid : Nat) (team_a team_b : String)
    (s_a s_b : Int) : SubmitOutcome × List BracketMatch :=
  if s_a = s_b then (.tied, ms)
  else
    match update_bracket_match ms mid
        (some (if s_a > s_b then team_a else team_b)) (some "COMPLETED") with
    | .ok ms2 => (.saved (if s_a > s_b then team_a else team_b), ms2)
    | .error _ => (.saveFailed, ms)

/-- Interface of the pseudo-random generator (`random` module) used by
`get_seeded_teams`: a global-state type with `seed` (re-initialising the
state from an integer, as `random.seed(1)`) and `randbelow`
(`random._randbelow(n + 1)`: a value in `[0, n + 1)` together with the
advanced state), the two entry points `random.shuffle` relies on.  The
generator itself (CPython's Mersenne Twister) is external library code, so
the bracket logic is embedded parametrically in it. -/
structure PRNG (σ : Type) where
  seed : Nat → σ
  randbelow : σ → (n : Nat) → Fin (n + 1) × σ

/-- One Fisher–Yates exchange `x[i], x[j] = x[j], x[i]`; out-of-range indices
leave the list unchanged (in `random.shuffle` both indices are always in
range). -/
def listSwap {α : Type} (xs : List α) (i j : Nat) : List α :=
  match xs[i]?, xs[j]? with
  | some a, some b => (xs.set i b).set j a
  | _, _ => xs

/-- Loop of CPython `random.shuffle`:
`for i in reversed(range(1, len(x))): j = _randbelow(i + 1); x[i], x[j] = x[j], x[i]`.
The first argument counts the remaining iterations; the loop variable takes
the values `i, i - 1, ..., 1`. -/
def shuffleAux {σ α : Type} (p : PRNG σ) : Nat → List α → σ → List α × σ
  | 0, xs, g => (xs, g)
  | i + 1, xs, g =>
    let r := p.randbelow g (i + 1)
    shuffleAux p i (listSwap xs (i + 1) r.1.val) r.2

/-- Embeds CPython `random.shuffle` on a list, threading the generator
state. -/
def shuffle {σ α : Type} (p : PRNG σ) (xs : List α) (g : σ) : List α × σ :=
  shuffleAux p (xs.length - 1) xs g

/-- Embeds `get_seeded_teams`: an empty collected team list is returned as is;
otherwise the global generator is re-seeded with the constant `1`
(`random.seed(1)  # deterministic`) and a copy of the list is shuffled.  The
team list itself is the output of `collect_team_names` (ready team names in
storage order), passed here as input. -/
def get_seeded_teams {σ : Type} (p : PRNG σ) (team_names : List String)
    (g : σ) : List String × σ :=
  if team_names.isEmpty then ([], g)
  else shuffle p team_names (p.seed 1)

/-- A concrete deterministic generator (one linear-congruential step) used to
instantiate the `PRNG` interface on concrete inputs; it stands in for
CPython's Mersenne Twister, whose exact output stream none of the verified
properties depend on. -/
def lcgStep (s : Nat) : Nat := (s * 1103515245 + 12345) % 2147483648

/-- The `PRNG` instance built from `lcgStep`. -/
def lcg : PRNG Nat where
  seed n := lcgStep n
  randbelow s n := (⟨lcgStep s % (n + 1), Nat.mod_lt _ (Nat.succ_pos n)⟩, lcgStep s)

/-- The `PENDING`, winnerless row shape both round-creation loops try to
insert (their inserts never succeed; see `create_round_one_matches`); used
here to build concrete stores. -/
def mkMatch (mid rnd : Nat) (a b : String) : BracketMatch :=
  { match_id := mid, round_number := rnd, team_a := a, team_b := b,
    winner := none, status := "PENDING" }

/-- `SELECT MAX(round_number) FROM bracket_matches WHERE guild_id = ?`
(callers treat the empty table separately, where SQL `MAX` is `NULL`). -/
def maxRound (ms : List BracketMatch) : Nat :=
  ms.foldr (fun m acc => max m.round_number acc) 0

/-- Comparison used to model `ORDER BY match_id ASC`. -/
def matchIdLE (m1 m2 : BracketMatch) : Prop := m1.match_id ≤ m2.match_id

instance : DecidableRel matchIdLE := fun m1 m2 => Nat.decLe m1.match_id m2.match_id

/-- The rows of one round in `match_id` order:
`SELECT ... WHERE guild_id = ? AND round_number = ? ORDER BY match_id ASC`. -/
def roundRows (ms : List BracketMatch) (r : Nat) : List BracketMatch :=
  List.insertionSort matchIdLE (ms.filter fun m => m.round_number == r)

/-- The completion test the cog applies to a row:
`(r["status"] or "").upper() == "COMPLETED"`. -/
def isCompleted (m : BracketMatch) : Bool := pyUpper m.status == "COMPLETED"

/-- Embeds `tournament_db.upsert_tournament` as the cogs call it
(`upsert_tournament(guild.id, t)`).  The definition is accidentally wrapped
by a stray `@with_conn` decorator, which prepends a connection argument to
every call, so the two-parameter function receives three positional
arguments and raises `TypeError` before touching the store.  Independently,
its body's UPDATE writes only name/max_teams/best_of/team_size — never
`status` — and its `run_db(conn, _op)` call repeats the `run_db` misuse. -/
def upsert_tournament (guild_id : Nat) (data : Tournament) : Except String Nat :=
  .error "TypeError: upsert_tournament() takes 2 positional arguments but 3 were given"

/-- Embeds `_create_round_one_matches`: fewer than two or an odd number of
seeded teams returns 0 without touching the store.  Otherwise the old
bracket rows are deleted (`clear_bracket`, a valid DELETE keyed on
`tournament_id`), and then the function dies: `SELECT COALESCE(MAX(match_id), 0)
FROM bracket_matches WHERE guild_id = ?` raises `OperationalError` because
the `bracket_matches` schema has no `guild_id` column.  The per-pair insert
loop below that read is unreachable — and its call
`insert_bracket_match(guild_id=, match_id=, round_number=, team_a=, team_b=,
winner=, status=, channel_id=)` would itself raise `TypeError`, the
signature being `(tournament_id, round_no, match_no, team_a_id, team_b_id,
status, match_channel_id)`.  No match row is ever inserted: on an even
seeded count of at least two, the result is the raised error with the
bracket cleared. -/
def create_round_one_matches (seeded : List String) (st : DBState) :
    Except String Nat × DBState :=
  if seeded.length < 2 then (.ok 0, st)
  else if seeded.length % 2 ≠ 0 then (.ok 0, st)
  else (.error "OperationalError: no such column: guild_id",
    { st with matchRows := [] })

/-- Embeds `_create_next_round_matches`: fewer than two or an odd number of
winner names returns 0.  Otherwise the same `MAX(match_id) ... WHERE
guild_id` read raises `OperationalError` before any insert is attempted (and
the inserts would fail with the same `insert_bracket_match` keyword
`TypeError` anyway); there is no clear on this path, so the store is
unchanged. -/
def create_next_round_matches (st : DBState) (round_number : Nat)
    (teams : List String) : Except String Nat × DBState :=
  if teams.length < 2 then (.ok 0, st)
  else if teams.length % 2 ≠ 0 then (.ok 0, st)
  else (.error "OperationalError: no such column: guild_id", st)

/-- Embeds `after_match_scored`, the advance step run after every score
submission.  Its first statement is
`SELECT MAX(round_number) FROM bracket_matches WHERE guild_id = ?`, and the
`bracket_matches` schema has neither a `round_number` nor a `guild_id`
column, so the query raises `OperationalError` on every call, whatever the
state; the caller in `on_submit` catches and logs it.  Everything after that
read — the round-completion check, champion announcement, `FINISHED`
transition and next-round creation — is unreachable, and the `FINISHED`
branch would in any case die in `upsert_tournament` (stray `@with_conn`).
The store is never touched. -/
def after_match_scored (st : DBState) : Except String (Option String) × DBState :=
  (.error "OperationalError: no such column: round_number", st)

/-- Outcome of the `start_tournament` command as observed by the invoking
user: the three synchronous rejections, an escaped exception (the command
has no try/except, so a raise after the deferral reaches the library's
generic handler and the user gets no report), or the two followup
messages. -/
inductive StartOutcome where
  | noTournament
  | alreadyRunning
  | alreadyFinished
  | crashed (msg : String)
  | ranNoMatches
  | ranCreated (n : Nat)
deriving Repr, DecidableEq

/-- Embeds the `start_tournament` slash command: no tournament row, or a row
already `RUNNING` or `FINISHED`, is rejected without touching the store.
Otherwise `t["status"] = "RUNNING"` mutates only the in-memory dict, and the
very next call — `upsert_tournament(guild.id, t)` — raises `TypeError`
(stray `@with_conn`), so the command dies before the ready-team count is
ever examined: the stored status stays as it was and no match rows are
created or deleted.  The continuation (seeding, round-one creation, the
"created N" / "couldn't create any matches" followups) is modelled but
unreachable; even along it the stored status would stay unchanged, since
`upsert_tournament` never writes `status`. -/
def start_tournament {σ : Type} (p : PRNG σ) (g : σ) (st : DBState) :
    StartOutcome × DBState :=
  match st.tournament with
  | none => (.noTournament, st)
  | some t =>
    if t.status = "RUNNING" then (.alreadyRunning, st)
    else if t.status = "FINISHED" then (.alreadyFinished, st)
    else
      match upsert_tournament 0 { t with status := "RUNNING" } with
      | .error e => (.crashed e, st)
      | .ok _ =>
        match create_round_one_matches (get_seeded_teams p st.readyTeams g).1 st with
        | (.ok n, st2) =>
          if n = 0 then (.ranNoMatches, st2) else (.ranCreated n, st2)
        | (.error e, st2) => (.crashed e, st2)

/-- Lookup in the `loss_round` dict (`loss_round[team]`), modelled as an
insertion-ordered association list. -/
def lrGet (lr : List (String × Nat)) (team : String) : Option Nat :=
  (lr.find? fun e => e.1 == team).map (fun e => e.2)

/-- Assignment `loss_round[loser] = rnd`: an existing key keeps its position
and gets the new value, a new key is appended (Python dict order). -/
def lrSet (lr : List (String × Nat)) (team : String) (rnd : Nat) :
    List (String × Nat) :=
  if (lr.find? fun e => e.1 == team).isSome then
    lr.map fun e => if e.1 == team then (e.1, rnd) else e
  else lr ++ [(team, rnd)]

/-- One row of the `_update_bracket_image` per-round loop: a completed row
whose truthy winner is one of its two teams appends that winner to the
round's column and records the loser's loss round (earliest round wins);
every other row appends `None`. -/
def matchStep (rnd : Nat) (acc : List (Option String) × List (String × Nat))
    (r : BracketMatch) : List (Option String) × List (String × Nat) :=
  match r.winner with
  | some w =>
    if isCompleted r && (w != "") && (w == r.team_a || w == r.team_b) then
      let loser := if w == r.team_a then r.team_b else r.team_a
      let lr :=
        if loser != "" &&
            (match lrGet acc.2 loser with
             | none => true
             | some old => decide (rnd < old)) then
          lrSet acc.2 loser rnd
        else acc.2
      (acc.1 ++ [some w], lr)
    else (acc.1 ++ [none], acc.2)
  | none => (acc.1 ++ [none], acc.2)

/-- The `for rnd in range(1, max_round + 1)` loop of `_update_bracket_image`:
processing rounds `1..n` yields the winner columns (one per round, in order)
and the accumulated `loss_round` dict. -/
def colsUpTo (ms : List BracketMatch) :
    Nat → List (List (Option String)) × List (String × Nat)
  | 0 => ([], [])
  | r + 1 =>
    let prev := colsUpTo ms r
    let cur := List.foldl (matchStep (r + 1)) ([], prev.2) (roundRows ms (r + 1))
    (prev.1 ++ [cur.1], cur.2)

/-- One `loss_round` entry of the eliminated-slot loop: mark column
`rnd - 1` at the team's first position in that column; out-of-range columns
and missing teams are skipped. -/
def slotStep (advancing : List (List (Option String)))
    (acc : List (Nat × Nat)) (e : String × Nat) : List (Nat × Nat) :=
  let col_idx := e.2 - 1
  match advancing[col_idx]? with
  | none => acc
  | some col =>
    match List.findIdx? (fun x => x == some e.1) col with
    | none => acc
    | some slot_index => acc ++ [(col_idx, slot_index)]

/-- The eliminated-slot loop of `_update_bracket_image` over the final
`loss_round` dict. -/
def eliminatedSlots (advancing : List (List (Option String)))
    (lr : List (String × Nat)) : List (Nat × Nat) :=
  List.foldl (slotStep advancing) [] lr

/-- Embeds the projection part of `_update_bracket_image`: column 0 is the
seed list, column `r` holds the winners of round `r` in match order (`None`
where undecided), and the eliminated slots are computed from the `loss_round`
dict.  The image drawing, channel lookup and message deletion around this
computation are not modelled. -/
def bracketProjection (seeds : List String) (ms : List BracketMatch) :
    List (List (Option String)) × List (Nat × Nat) :=
  let built := colsUpTo ms (maxRound ms)
  let advancing := (seeds.map some) :: built.1
  (advancing, eliminatedSlots advancing built.2)

/-- The loss a row records, if any: a completed row whose truthy winner is
one of its two teams yields the other team, provided that loser name is
itself truthy (the condition guarding `loss_round[loser] = rnd`). -/
def loserOf (m : BracketMatch) : Option String :=
  match m.winner with
  | some w =>
    if isCompleted m && (w != "") && (w == m.team_a || w == m.team_b) then
      let loser := if w == m.team_a then m.team_b else m.team_a
      if loser != "" then some loser else none
    else none
  | none => none

/-- `team` appears as a loser in round `rnd` of the match table: some row of
that round records a loss of `team` (the spec's "appears as a loser"). -/
def losesInRound (ms : List BracketMatch) (team : String) (rnd : Nat) : Prop :=
  team ∈ (roundRows ms rnd).filterMap loserOf

instance (ms : List BracketMatch) (team : String) (rnd : Nat) :
    Decidable (losesInRound ms team rnd) :=
  inferInstanceAs (Decidable (team ∈ (roundRows ms rnd).filterMap loserOf))

/-- A Fisher–Yates exchange permutes the list. -/
theorem listSwap_perm {α : Type} [DecidableEq α] (xs : List α) (i j : Nat) :
    (listSwap xs i j).Perm xs := by
  unfold listSwap
  split
  next a b h1 h2 =>
    obtain ⟨hi, hxi⟩ := List.getElem?_eq_some.mp h1
    obtain ⟨hj, hxj⟩ := List.getElem?_eq_some.mp h2
    have hj' : j < (xs.set i b).length := by simpa using hj
    have hgj : (xs.set i b)[j] = b := by
      rw [List.getElem_set]
      split
      · rfl
      · exact hxj
    have hmem : a ∈ xs := hxi ▸ List.getElem_mem hi
    rw [List.perm_iff_count]
    intro c
    rw [List.count_set a c (xs.set i b) j hj', List.count_set b c xs i hi]
    rw [hgj, hxi]
    by_cases ha : a = c
    · have hpos : 0 < List.count c xs := List.count_pos_iff.mpr (ha ▸ hmem)
      by_cases hb : b = c
      · simp [ha, hb]
        omega
      · simp [ha, hb]
        omega
    · by_cases hb : b = c <;> simp [ha, hb]
  next => exact List.Perm.refl _

/-- The `random.shuffle` loop permutes its list, whatever values the
generator produces. -/
theorem shuffleAux_perm {σ α : Type} [DecidableEq α] (p : PRNG σ) (n : Nat) :
    ∀ (xs : List α) (g : σ), ((shuffleAux p n xs g).1).Perm xs := by
  induction n with
  | zero => intro xs g; exact List.Perm.refl xs
  | succ n ih =>
    intro xs g
    simp only [shuffleAux]
    exact (ih _ _).trans (listSwap_perm xs (n + 1) _)

/-- `random.shuffle` permutes its list. -/
theorem shuffle_perm {σ α : Type} [DecidableEq α] (p : PRNG σ) (xs : List α)
    (g : σ) : ((shuffle p xs g).1).Perm xs :=
  shuffleAux_perm p (xs.length - 1) xs g

/-- `get_seeded_teams` returns a permutation of the collected team list. -/
theorem seeded_perm {σ : Type} (p : PRNG σ) (team_names : List String) (g : σ) :
    ((get_seeded_teams p team_names g).1).Perm team_names := by
  unfold get_seeded_teams
  split
  next h =>
    rw [List.isEmpty_iff.mp h]
  next => exact shuffle_perm p team_names (p.seed 1)

/-- C5: the seeding function is deterministic in its input sequence: because
`get_seeded_teams` re-seeds the global generator with the fixed constant 1 on
every invocation, two calls on the same team list yield the same output
sequence regardless of the generator state each call starts from. -/
theorem seeding_deterministic {σ : Type} (p : PRNG σ) (team_names : List String)
    (g g' : σ) :
    (get_seeded_teams p team_names g).1 = (get_seeded_teams p team_names g').1 := by
  unfold get_seeded_teams
  split <;> rfl

/-- C10: seeding returns a permutation of its input: the output team list is
a rearrangement of the input (same multiset, hence no team dropped or
duplicated) and has the same length. -/
theorem seeding_is_permutation {σ : Type} (p : PRNG σ) (team_names : List String)
    (g : σ) :
    ((get_seeded_teams p team_names g).1).Perm team_names ∧
      (get_seeded_teams p team_names g).1.length = team_names.length :=
  ⟨seeded_perm p team_names g, (seeded_perm p team_names g).length_eq⟩

/-- C4: a tied score is rejected by the score modal before any persistence
write: the outcome is the tie error, the store is returned untouched, and in
particular a pending match stays `PENDING` with no winner recorded. -/
theorem tied_score_rejected (ms : List BracketMatch) (mid : Nat)
    (team_a team_b : String) (s_a s_b : Int) (heq : s_a = s_b)
    (hpend : ∀ m ∈ ms, m.match_id = mid →
      pyUpper m.status = "PENDING" ∧ m.winner = none) :
    (record_result ms mid team_a team_b s_a s_b).1 = SubmitOutcome.tied ∧
      (record_result ms mid team_a team_b s_a s_b).2 = ms ∧
      ∀ m ∈ (record_result ms mid team_a team_b s_a s_b).2, m.match_id = mid →
        pyUpper m.status = "PENDING" ∧ m.winner = none := by
  unfold record_result
  rw [if_pos heq]
  exact ⟨rfl, rfl, hpend⟩

/-- Witness for `tied_score_rejected`: the spec's example `record_result(match, 3, 3)`
on a concrete pending match. -/
theorem tied_score_rejected_witness :
    (3 : Int) = 3 ∧
      (record_result [mkMatch 1 1 "A" "B"] 1 "A" "B" 3 3).1 = SubmitOutcome.tied ∧
      (record_result [mkMatch 1 1 "A" "B"] 1 "A" "B" 3 3).2 = [mkMatch 1 1 "A" "B"] :=
  ⟨rfl,
    (tied_score_rejected [mkMatch 1 1 "A" "B"] 1 "A" "B" 3 3 rfl (by decide)).1,
    (tied_score_rejected [mkMatch 1 1 "A" "B"] 1 "A" "B" 3 3 rfl (by decide)).2.1⟩

/-- C9 (code bug): evaluation at the failing input, a pending match `A` vs
`B` scored 3:1.  The higher-score winner is computed in memory, but the save
raises `TypeError` inside `update_bracket_match` (SQL text passed to
`run_db`, which takes a callable); `on_submit` reports a failed save and the
stored row remains `PENDING` with no winner — no winner and no `COMPLETED`
status is ever persisted. -/
theorem record_result_save_always_fails :
    (record_result [mkMatch 1 1 "A" "B"] 1 "A" "B" 3 1).1 =
      SubmitOutcome.saveFailed ∧
    (record_result [mkMatch 1 1 "A" "B"] 1 "A" "B" 3 1).2 =
      [mkMatch 1 1 "A" "B"] := by
  decide

/-- The failing input for the duplicate-result claim: match 7 `Alpha` vs
`Beta`, already completed with recorded winner `Alpha`. -/
def completedStore : List BracketMatch :=
  [{ match_id := 7, round_number := 1, team_a := "Alpha", team_b := "Beta",
     winner := some "Alpha", status := "completed" }]

/-- C1 (code bug): resubmitting a result (scores 0:2) for the
already-completed match 7 is not rejected by any conflict check: no code
path reads the stored status.  The submission fails only with the generic
failed-save error that every submission hits (the broken `run_db` call),
exactly as the identical outcome on a `PENDING` match shows; the stored
winner stays `Alpha` merely because no save of any kind can succeed. -/
theorem completed_match_resubmission_no_conflict_check :
    (record_result completedStore 7 "Alpha" "Beta" 0 2).1 =
      SubmitOutcome.saveFailed ∧
    (record_result completedStore 7 "Alpha" "Beta" 0 2).2 = completedStore ∧
    (record_result [mkMatch 9 1 "Alpha" "Beta"] 9 "Alpha" "Beta" 0 2).1 =
      SubmitOutcome.saveFailed := by
  decide

/-- C2 (code bug): evaluation at failing inputs — a WAITING tournament with
zero ready teams, and one with six.  In both cases the command crashes with
`TypeError` inside `upsert_tournament` before the ready-team count is ever
examined: no failure is reported to the caller, and the store — tournament
status and match rows alike — is untouched. -/
theorem start_tournament_always_crashes :
    (start_tournament lcg 0 ⟨some ⟨"WAITING"⟩, [], []⟩).1 =
      StartOutcome.crashed
        "TypeError: upsert_tournament() takes 2 positional arguments but 3 were given" ∧
    (start_tournament lcg 0 ⟨some ⟨"WAITING"⟩, [], []⟩).2 =
      ⟨some ⟨"WAITING"⟩, [], []⟩ ∧
    (start_tournament lcg 0
        ⟨some ⟨"WAITING"⟩, ["t1", "t2", "t3", "t4", "t5", "t6"], []⟩).1 =
      StartOutcome.crashed
        "TypeError: upsert_tournament() takes 2 positional arguments but 3 were given" ∧
    (start_tournament lcg 0
        ⟨some ⟨"WAITING"⟩, ["t1", "t2", "t3", "t4", "t5", "t6"], []⟩).2 =
      ⟨some ⟨"WAITING"⟩, ["t1", "t2", "t3", "t4", "t5", "t6"], []⟩ := by
  decide

/-- C3: running the advance step twice in a row with no new results in
between creates no duplicate matches — vacuously so: every
`after_match_scored` run raises `OperationalError` on its first query and
leaves the match table untouched, so neither the first nor the second run
creates a match in any round. -/
theorem advance_idempotent (st : DBState) :
    (after_match_scored st).2.matchRows = st.matchRows ∧
    (after_match_scored (after_match_scored st).2).2.matchRows =
      (after_match_scored st).2.matchRows :=
  ⟨rfl, rfl⟩

/-- C6 (code bug): evaluation at the failing input, the four-team seed
order `[C, A, D, B]` over a store holding one old bracket row.  Round-one
creation clears the old bracket and then raises `OperationalError` at the
`MAX(match_id) ... WHERE guild_id` read (no such column); the insert loop —
itself a `TypeError` (wrong keywords) — is unreachable, so zero rows are
persisted instead of `N/2` `PENDING` matches. -/
theorem round_one_creation_crashes :
    (create_round_one_matches ["C", "A", "D", "B"]
        ⟨some ⟨"RUNNING"⟩, [], [mkMatch 1 1 "X" "Y"]⟩).1 =
      Except.error "OperationalError: no such column: guild_id" ∧
    (create_round_one_matches ["C", "A", "D", "B"]
        ⟨some ⟨"RUNNING"⟩, [], [mkMatch 1 1 "X" "Y"]⟩).2.matchRows = [] :=
  ⟨rfl, rfl⟩

/-- Unfolding `maxRound` over a cons. -/
theorem maxRound_cons (x : BracketMatch) (xs : List BracketMatch) :
    maxRound (x :: xs) = max x.round_number (maxRound xs) := rfl

/-- Every row's round number is bounded by the table's `maxRound`. -/
theorem round_le_maxRound {ms : List BracketMatch} {m : BracketMatch}
    (h : m ∈ ms) : m.round_number ≤ maxRound ms := by
  induction ms with
  | nil => cases h
  | cons x xs ih =>
    rcases List.mem_cons.mp h with h | h
    · subst h
      rw [maxRound_cons]
      exact Nat.le_max_left _ _
    · rw [maxRound_cons]
      exact Nat.le_trans (ih h) (Nat.le_max_right _ _)

/-- The spec's four-team final state: both round-one matches and the final
are completed, `C` beat `B` in the final. -/
def champScenario : DBState :=
  ⟨some ⟨"RUNNING"⟩, [],
    [⟨1, 1, "C", "A", some "C", "completed"⟩,
     ⟨2, 1, "D", "B", some "B", "completed"⟩,
     ⟨3, 2, "C", "B", some "C", "completed"⟩]⟩

/-- C7 (code bug): evaluation at the failing input `champScenario`, whose
highest round is a single completed match won by `C`.  The advance step
raises `OperationalError` on its first query (`MAX(round_number) ... WHERE
guild_id`: neither column exists), so the tournament status is never set to
`FINISHED` and no champion is announced; had the reads worked, the
`FINISHED` branch would still die in `upsert_tournament` (stray
`@with_conn`), whose UPDATE does not write `status` in any case. -/
theorem advance_never_finishes :
    (after_match_scored champScenario).1 =
      Except.error "OperationalError: no such column: round_number" ∧
    (after_match_scored champScenario).2 = champScenario :=
  ⟨rfl, rfl⟩

/-- A successful `loss_round` lookup comes from an entry of the dict. -/
theorem lrGet_mem {lr : List (String × Nat)} {team : String} {v : Nat}
    (h : lrGet lr team = some v) : (team, v) ∈ lr := by
  unfold lrGet at h
  cases hf : lr.find? (fun e => e.1 == team) with
  | none => rw [hf] at h; cases h
  | some e =>
    rw [hf] at h
    have he := List.find?_some hf
    have hm : e ∈ lr := List.mem_of_find?_eq_some hf
    obtain ⟨k, v'⟩ := e
    simp at h he
    subst he
    subst h
    exact hm

/-- A `loss_round` lookup misses exactly when no entry carries the key. -/
theorem lrGet_eq_none_iff {lr : List (String × Nat)} {team : String} :
    lrGet lr team = none ↔ ∀ v : Nat, (team, v) ∉ lr := by
  unfold lrGet
  constructor
  · intro h v hv
    cases hf : lr.find? (fun e => e.1 == team) with
    | some e => rw [hf] at h; cases h
    | none =>
      exact List.find?_eq_none.mp hf (team, v) hv (by simp)
  · intro h
    cases hf : lr.find? (fun e => e.1 == team) with
    | none => rfl
    | some e =>
      have he := List.find?_some hf
      have hm : e ∈ lr := List.mem_of_find?_eq_some hf
      obtain ⟨k, v⟩ := e
      simp only [beq_iff_eq] at he
      subst he
      exact absurd hm (h v)

/-- Setting an absent key appends the new entry (Python dict insertion). -/
theorem lrSet_absent {lr : List (String × Nat)} {team : String} {rnd : Nat}
    (h : lrGet lr team = none) : lrSet lr team rnd = lr ++ [(team, rnd)] := by
  unfold lrSet
  rw [if_neg]
  intro hs
  obtain ⟨e, hf⟩ := Option.isSome_iff_exists.mp hs
  unfold lrGet at h
  rw [hf] at h
  cases h

/-- A lookup misses the extended dict exactly when it misses the old dict and
the new key differs. -/
theorem lrGet_append_none {lr : List (String × Nat)} {team l : String} {v : Nat} :
    lrGet (lr ++ [(l, v)]) team = none ↔ lrGet lr team = none ∧ team ≠ l := by
  rw [lrGet_eq_none_iff, lrGet_eq_none_iff]
  constructor
  · intro h
    refine ⟨fun w hw => h w (List.mem_append_left _ hw), fun htl => ?_⟩
    exact h v (by simp [htl])
  · rintro ⟨h1, h2⟩ w hw
    rcases List.mem_append.mp hw with hw | hw
    · exact h1 w hw
    · simp at hw
      exact h2 hw.1

/-- The `loss_round` effect of one row of the per-round loop, separated from
the winner-column effect: a recordable loss (`loserOf`) is written if the
loser is absent from the dict or recorded with a later round. -/
def lrUpd (rnd : Nat) (lr : List (String × Nat)) (row : BracketMatch) :
    List (String × Nat) :=
  match loserOf row with
  | none => lr
  | some l =>
    if (match lrGet lr l with
        | none => true
        | some old => decide (rnd < old)) then lrSet lr l rnd
    else lr

/-- `matchStep` acts on the `loss_round` component exactly as `lrUpd`. -/
theorem matchStep_snd (rnd : Nat)
    (acc : List (Option String) × List (String × Nat)) (row : BracketMatch) :
    (matchStep rnd acc row).2 = lrUpd rnd acc.2 row := by
  unfold matchStep lrUpd loserOf
  cases hw : row.winner with
  | none => rfl
  | some w =>
    by_cases hcond :
        (isCompleted row && (w != "") && (w == row.team_a || w == row.team_b)) = true
    · by_cases hl : ((if w == row.team_a then row.team_b else row.team_a) != "") = true
      · have hl' : (if w = row.team_a then row.team_b else row.team_a) ≠ "" := by
          simpa using hl
        simp [hcond, hl']
      · have hl' : (if w = row.team_a then row.team_b else row.team_a) = "" := by
          simpa using hl
        simp [hcond, hl']
    · simp [hcond]

/-- Folding `matchStep` over a round acts on the `loss_round` component as
folding `lrUpd`. -/
theorem foldl_matchStep_snd (rnd : Nat) (rows : List BracketMatch) :
    ∀ (acc : List (Option String) × List (String × Nat)),
      (List.foldl (matchStep rnd) acc rows).2 = List.foldl (lrUpd rnd) acc.2 rows := by
  induction rows with
  | nil => intro acc; rfl
  | cons row rows' ih =>
    intro acc
    rw [List.foldl_cons, List.foldl_cons, ih, matchStep_snd]

/-- Entries after one `lrUpd` step are old entries or carry the current
round. -/
theorem lrUpd_mem_or {rnd : Nat} {lr : List (String × Nat)} {row : BracketMatch}
    {e : String × Nat} (h : e ∈ lrUpd rnd lr row) : e ∈ lr ∨ e.2 = rnd := by
  cases hlo : loserOf row with
  | none =>
    simp only [lrUpd, hlo] at h
    exact Or.inl h
  | some l =>
    simp only [lrUpd, hlo] at h
    split at h
    · unfold lrSet at h
      split at h
      · rcases List.mem_map.mp h with ⟨e₀, he₀, hfe⟩
        by_cases hk : (e₀.1 == l) = true
        · rw [if_pos hk] at hfe
          exact Or.inr (by rw [← hfe])
        · rw [if_neg hk] at hfe
          exact Or.inl (hfe ▸ he₀)
      · rcases List.mem_append.mp h with h | h
        · exact Or.inl h
        · simp at h
          exact Or.inr (by rw [h])
    · exact Or.inl h

/-- The `loss_round` dict after processing one round's rows. -/
def lrRound (rnd : Nat) (lr : List (String × Nat)) (rows : List BracketMatch) :
    List (String × Nat) :=
  rows.foldl (lrUpd rnd) lr

/-- Entries after a whole round are old entries or carry the current round. -/
theorem lrRound_mem_or {rnd : Nat} {rows : List BracketMatch} :
    ∀ {lr : List (String × Nat)} {e : String × Nat},
      e ∈ lrRound rnd lr rows → e ∈ lr ∨ e.2 = rnd := by
  induction rows with
  | nil => intro lr e h; exact Or.inl h
  | cons row rows' ih =>
    intro lr e h
    unfold lrRound at h
    rw [List.foldl_cons] at h
    rcases ih h with h' | h'
    · exact (lrUpd_mem_or h').imp_right id
    · exact Or.inr h'

/-- Characterisation of the `loss_round` dict after one round: an entry
`(team, r)` is present afterwards iff it was present before, or the round
being processed is `r`, the team was absent, and some row of the round
records a loss of the team. -/
theorem lrRound_mem (rnd : Nat) (rows : List BracketMatch) :
    ∀ (lr : List (String × Nat)), (∀ e ∈ lr, e.2 ≤ rnd) →
      ∀ (team : String) (r : Nat),
        ((team, r) ∈ lrRound rnd lr rows ↔
          (team, r) ∈ lr ∨
            (r = rnd ∧ lrGet lr team = none ∧ team ∈ rows.filterMap loserOf)) := by
  induction rows with
  | nil =>
    intro lr hv team r
    simp [lrRound]
  | cons row rows' ih =>
    intro lr hv team r
    unfold lrRound
    rw [List.foldl_cons]
    cases hlo : loserOf row with
    | none =>
      have hupd : lrUpd rnd lr row = lr := by simp [lrUpd, hlo]
      rw [hupd]
      rw [show List.foldl (lrUpd rnd) lr rows' = lrRound rnd lr rows' from rfl,
        ih lr hv team r]
      simp [List.filterMap_cons, hlo]
    | some l =>
      cases hget : lrGet lr l with
      | some old =>
        have hold : old ≤ rnd := hv (l, old) (lrGet_mem hget)
        have hupd : lrUpd rnd lr row = lr := by
          simp only [lrUpd, hlo, hget]
          rw [if_neg]
          simp
          omega
        rw [hupd]
        rw [show List.foldl (lrUpd rnd) lr rows' = lrRound rnd lr rows' from rfl,
          ih lr hv team r]
        simp only [List.filterMap_cons, hlo]
        constructor
        · rintro (h | ⟨h1, h2, h3⟩)
          · exact Or.inl h
          · exact Or.inr ⟨h1, h2, List.mem_cons_of_mem _ h3⟩
        · rintro (h | ⟨h1, h2, h3⟩)
          · exact Or.inl h
          · rcases List.mem_cons.mp h3 with h4 | h4
            · rw [h4] at h2
              rw [h2] at hget
              cases hget
            · exact Or.inr ⟨h1, h2, h4⟩
      | none =>
        have hupd : lrUpd rnd lr row = lr ++ [(l, rnd)] := by
          simp only [lrUpd, hlo, hget, if_true]
          exact lrSet_absent hget
        rw [hupd]
        have hv' : ∀ e ∈ lr ++ [(l, rnd)], e.2 ≤ rnd := by
          intro e he
          rcases List.mem_append.mp he with he | he
          · exact hv e he
          · simp at he
            rw [he]
        rw [show List.foldl (lrUpd rnd) (lr ++ [(l, rnd)]) rows' =
            lrRound rnd (lr ++ [(l, rnd)]) rows' from rfl,
          ih (lr ++ [(l, rnd)]) hv' team r]
        simp only [List.filterMap_cons, hlo]
        constructor
        · rintro (h | ⟨h1, h2, h3⟩)
          · rcases List.mem_append.mp h with h | h
            · exact Or.inl h
            · simp at h
              exact Or.inr ⟨h.2, by rw [h.1]; exact hget,
                by rw [h.1]; exact List.mem_cons_self _ _⟩
          · obtain ⟨h2a, h2b⟩ := lrGet_append_none.mp h2
            exact Or.inr ⟨h1, h2a, List.mem_cons_of_mem _ h3⟩
        · rintro (h | ⟨h1, h2, h3⟩)
          · exact Or.inl (List.mem_append_left _ h)
          · rcases List.mem_cons.mp h3 with h4 | h4
            · exact Or.inl (List.mem_append_right _ (by simp [h4, h1]))
            · by_cases htl : team = l
              · exact Or.inl (List.mem_append_right _ (by simp [htl, h1]))
              · exact Or.inr ⟨h1, lrGet_append_none.mpr ⟨h2, htl⟩, h4⟩

/-- The `loss_round` dict after processing rounds `1..n+1` is the dict after
`1..n` updated by round `n+1`. -/
theorem colsUpTo_snd_succ (ms : List BracketMatch) (n : Nat) :
    (colsUpTo ms (n + 1)).2 = lrRound (n + 1) (colsUpTo ms n).2 (roundRows ms (n + 1)) := by
  show (List.foldl (matchStep (n + 1)) ([], (colsUpTo ms n).2) (roundRows ms (n + 1))).2 = _
  rw [foldl_matchStep_snd]
  rfl

/-- All recorded loss rounds after processing rounds `1..n` lie in `1..n`. -/
theorem colsUpTo_bounds (ms : List BracketMatch) :
    ∀ n, ∀ e ∈ (colsUpTo ms n).2, 1 ≤ e.2 ∧ e.2 ≤ n := by
  intro n
  induction n with
  | zero => intro e he; cases he
  | succ n ih =>
    intro e he
    rw [colsUpTo_snd_succ] at he
    rcases lrRound_mem_or he with h | h
    · have := ih e h
      omega
    · omega

/-- Characterisation of the final `loss_round` dict: team `t` is recorded
with round `r` iff `r ∈ [1, n]` is the earliest round (among those processed)
in which `t` appears as a loser. -/
theorem colsUpTo_mem (ms : List BracketMatch) :
    ∀ (n : Nat) (team : String) (r : Nat),
      (team, r) ∈ (colsUpTo ms n).2 ↔
        (1 ≤ r ∧ r ≤ n ∧ losesInRound ms team r ∧
          ∀ r' < r, 1 ≤ r' → ¬ losesInRound ms team r') := by
  intro n
  induction n with
  | zero =>
    intro team r
    constructor
    · intro h
      cases h
    · rintro ⟨h1, h2, -, -⟩
      omega
  | succ n ih =>
    intro team r
    rw [colsUpTo_snd_succ]
    have hv : ∀ e ∈ (colsUpTo ms n).2, e.2 ≤ n + 1 := fun e he => by
      have := colsUpTo_bounds ms n e he
      omega
    rw [lrRound_mem (n + 1) (roundRows ms (n + 1)) _ hv team r]
    constructor
    · rintro (h | ⟨h1, h2, h3⟩)
      · obtain ⟨k1, k2, k3, k4⟩ := (ih team r).mp h
        exact ⟨k1, by omega, k3, k4⟩
      · subst h1
        refine ⟨by omega, by omega, h3, ?_⟩
        intro r' hr' h1r' hL
        have hex : ∃ k, 1 ≤ k ∧ k ≤ n ∧ losesInRound ms team k :=
          ⟨r', h1r', by omega, hL⟩
        have hmem : (team, Nat.find hex) ∈ (colsUpTo ms n).2 := by
          obtain ⟨k1, k2, k3⟩ := Nat.find_spec hex
          refine (ih team (Nat.find hex)).mpr ⟨k1, k2, k3, ?_⟩
          intro r'' hr'' h1r'' hL''
          exact Nat.find_min hex hr'' ⟨h1r'', by omega, hL''⟩
        exact lrGet_eq_none_iff.mp h2 (Nat.find hex) hmem
    · rintro ⟨h1, h2, h3, h4⟩
      by_cases hr : r ≤ n
      · exact Or.inl ((ih team r).mpr ⟨h1, hr, h3, h4⟩)
      · right
        have hrn : r = n + 1 := by omega
        subst hrn
        refine ⟨rfl, ?_, h3⟩
        rw [lrGet_eq_none_iff]
        intro v hv'
        obtain ⟨k1, k2, k3, k4⟩ := (ih team v).mp hv'
        exact h4 v (by omega) k1 k3

/-- The eliminated-slot loop only appends: existing accumulator entries
survive. -/
theorem foldl_slotStep_mono (advancing : List (List (Option String))) :
    ∀ (lr : List (String × Nat)) (acc : List (Nat × Nat)) (z : Nat × Nat),
      z ∈ acc → z ∈ List.foldl (slotStep advancing) acc lr := by
  intro lr
  induction lr with
  | nil => intro acc z h; exact h
  | cons e es ih =>
    intro acc z h
    rw [List.foldl_cons]
    apply ih
    simp only [slotStep]
    split
    · exact h
    · split
      · exact h
      · exact List.mem_append_left _ h

/-- A `loss_round` entry whose column exists and contains the team
contributes its slot to the eliminated-slot list. -/
theorem foldl_slotStep_entry (advancing : List (List (Option String)))
    (team : String) (r : Nat) (col : List (Option String)) (idx : Nat)
    (hcol : advancing[r - 1]? = some col)
    (hidx : List.findIdx? (fun x => x == some team) col = some idx) :
    ∀ (lr : List (String × Nat)) (acc : List (Nat × Nat)), (team, r) ∈ lr →
      (r - 1, idx) ∈ List.foldl (slotStep advancing) acc lr := by
  intro lr
  induction lr with
  | nil => intro acc h; cases h
  | cons e es ih =>
    intro acc h
    rw [List.foldl_cons]
    rcases List.mem_cons.mp h with he | he
    · apply foldl_slotStep_mono
      rw [← he]
      simp only [slotStep, hcol, hidx]
      exact List.mem_append_right _ (by simp)
    · exact ih _ he

/-- A team appearing as a loser in some processed round has its earliest loss
round bounded by the table's maximum round. -/
theorem losesInRound_le_maxRound {ms : List BracketMatch} {team : String}
    {r : Nat} (h : losesInRound ms team r) : r ≤ maxRound ms := by
  unfold losesInRound at h
  obtain ⟨m, hm, -⟩ := List.mem_filterMap.mp h
  have hm' : m ∈ ms.filter (fun x => x.round_number == r) :=
    (List.perm_insertionSort matchIdLE _).mem_iff.mp hm
  have hmf := List.mem_filter.mp hm'
  have hround : m.round_number = r := by simpa using hmf.2
  calc r = m.round_number := hround.symm
    _ ≤ maxRound ms := round_le_maxRound hmf.1

/-- C8: the bracket projection marks a team that has lost at column index
`r - 1` (0-based), where `r ≥ 1` is the earliest round in which the team
appears as a loser, at the slot index of the team's position within that
column (its first occurrence); in particular a loss in round 2 is marked in
column 1, not column 0. -/
theorem elimination_slot_marked (seeds : List String) (ms : List BracketMatch)
    (team : String) (r : Nat) (col : List (Option String)) (idx : Nat)
    (hr1 : 1 ≤ r) (hlose : losesInRound ms team r)
    (hmin : ∀ r' < r, 1 ≤ r' → ¬ losesInRound ms team r')
    (hcol : (bracketProjection seeds ms).1[r - 1]? = some col)
    (hidx : List.findIdx? (fun x => x == some team) col = some idx) :
    (r - 1, idx) ∈ (bracketProjection seeds ms).2 := by
  have hle : r ≤ maxRound ms := losesInRound_le_maxRound hlose
  have hmem : (team, r) ∈ (colsUpTo ms (maxRound ms)).2 :=
    (colsUpTo_mem ms (maxRound ms) team r).mpr ⟨hr1, hle, hlose, hmin⟩
  exact foldl_slotStep_entry _ team r col idx hcol hidx _ [] hmem

/-- Witness for `elimination_slot_marked`: in the spec's four-team scenario
(`champScenario`, seeds `[C, A, D, B]`), team `B` loses in round 2 and is
marked eliminated at column 1, slot 1 — not in column 0. -/
theorem elimination_slot_marked_witness :
    losesInRound champScenario.matchRows "B" 2 ∧
    (bracketProjection ["C", "A", "D", "B"] champScenario.matchRows).1[2 - 1]? =
      some [some "C", some "B"] ∧
    (2 - 1, 1) ∈ (bracketProjection ["C", "A", "D", "B"] champScenario.matchRows).2 :=
  ⟨by decide, by decide,
    elimination_slot_marked ["C", "A", "D", "B"] champScenario.matchRows "B" 2
      [some "C", some "B"] 1 (by decide) (by decide) (by decide) (by decide)
      (by decide)⟩
